import Mathlib

/-!
Verification of the runtime argument value model of
`concretelang/Support/LambdaArgument.h` (Concrete compiler).

Shallow embedding conventions:
* C++ unsigned integers of width `w` are `Nat` values; storing into such an
  integer applies `% 2^w`; `std::numeric_limits<T>::max()` is `2^w - 1`.
* `int64_t` dimension sizes are `Int`; the C++ range-for
  `for (unsigned int dimSize : dimensions)` converts each `int64_t` to a
  32-bit unsigned integer, which C++ defines as reduction modulo `2^32`.
* Fallible operations return an explicit outcome type; a C++ execution path
  whose behaviour is undefined (division by zero) is modelled by a dedicated
  outcome constructor so that it is distinguishable from normal results.
* The LLVM `RTTIExtends` hierarchy is modelled by the finite set of concrete
  argument kinds together with an `isa` test per target class that walks the
  declared parent chain (`EIntLambdaArgument<T>` extends
  `IntLambdaArgument<T>`, which extends `LambdaArgument`;
  `TensorLambdaArgument<S>` extends `LambdaArgument` directly).
  `dyn_cast<T>` returns a non-null pointer exactly when `isa` succeeds.
-/

namespace Concretelang

/-! ## Scalar construction (`IntLambdaArgument<BackingIntType>` constructor)

The constructor stores, for `precision < 8 * sizeof(BackingIntType)`,
`value & (1 << (this->precision - 1))`, otherwise `value` unchanged.
`w` is the bit width of the backing type; the stored field holds the result
reduced to the backing width. -/

def intLambdaArgumentStoredValue (w value precision : Nat) : Nat :=
  if precision < w then ((value % 2 ^ w) &&& (2 ^ (precision - 1))) % 2 ^ w
  else value % 2 ^ w

/-- Modelled from the spec: the claimed construction-time normalization, which
masks the raw value to its low `precision` bits (all bits at positions
`>= precision` cleared, positions `< precision` preserved). Stated only to
exhibit the divergence of the source formula from the claim. -/
def specLowBitsStoredValue (w value precision : Nat) : Nat :=
  if precision < w then (value % 2 ^ w) % 2 ^ precision
  else value % 2 ^ w

/-! ## Overflow-checked multiplication (`safeUnsignedMul`)

The source computes `left = std::numeric_limits<AccuT>::max() / accu` with no
special case for `accu == 0`; C++ division by zero is undefined behaviour,
modelled by the dedicated outcome `divByZeroUB`. On `left > factor` it
performs `accu *= factor` (wrapping arithmetic of the backing width),
otherwise it reports an overflow error naming both operands. -/

inductive MulOutcome where
  | ok (accu : Nat)
  | overflow (accu factor : Nat)
  | divByZeroUB
  deriving DecidableEq

def safeUnsignedMul (w accu factor : Nat) : MulOutcome :=
  if accu = 0 then MulOutcome.divByZeroUB
  else if factor < (2 ^ w - 1) / accu then MulOutcome.ok ((accu * factor) % 2 ^ w)
  else MulOutcome.overflow accu factor

/-! ## Tensor arguments (`TensorLambdaArgument<ScalarArgumentT>`) -/

structure TensorLambdaArgument where
  value : List Nat
  dimensions : List Int
  deriving DecidableEq

/-- Buffer-copying constructor: copies `value` element by element via
`std::back_inserter` and stores `dimensions`; no validation. -/
def TensorLambdaArgument.ofCopy (value : List Nat) (dimensions : List Int) :
    TensorLambdaArgument :=
  { value := value, dimensions := dimensions }

/-- Buffer-moving constructor: moves `value` and stores `dimensions`;
no validation. -/
def TensorLambdaArgument.ofMove (value : List Nat) (dimensions : List Int) :
    TensorLambdaArgument :=
  { value := value, dimensions := dimensions }

/-- Invariant claimed by the spec for fully constructed tensors:
the linear buffer length equals the product of the dimension sizes. -/
def TensorLambdaArgument.invariantHolds (t : TensorLambdaArgument) : Prop :=
  (t.value.length : Int) = t.dimensions.prod

/-- C++ conversion of an `int64_t` to `unsigned int` (32-bit): reduction
modulo `2^32`, as performed by `for (unsigned int dimSize : dimensions)`. -/
def cppToUInt32 (d : Int) : Nat := (d % (2 ^ 32 : Int)).toNat

/-- Loop body of `getNumElements`: folds `safeUnsignedMul` (with a 64-bit
`size_t` accumulator) over the dimensions, each first converted to
`unsigned int`, propagating the first non-ok outcome. -/
def foldSafeMul (accu : Nat) : List Int → MulOutcome
  | [] => MulOutcome.ok accu
  | d :: ds =>
    match safeUnsignedMul 64 accu (cppToUInt32 d) with
    | MulOutcome.ok a => foldSafeMul a ds
    | e => e

/-- `TensorLambdaArgument::getNumElements`: accumulator starts at 1. -/
def getNumElements (t : TensorLambdaArgument) : MulOutcome :=
  foldSafeMul 1 t.dimensions

/-- `TensorLambdaArgument::operator==`: returns false on differing dimension
vectors, otherwise compares element pairs produced by `llvm::zip` of the two
linear buffers (which stops at the shorter buffer). -/
def TensorLambdaArgument.beq (a b : TensorLambdaArgument) : Bool :=
  if a.dimensions = b.dimensions then
    (List.zip a.value b.value).all fun p => p.1 == p.2
  else false

/-! ## Dynamic kinds and type-name resolution -/

inductive IntWidth where
  | i8 | u8 | i16 | u16 | i32 | u32 | i64 | u64
  deriving DecidableEq

/-- `NameOfFundamentalType<T>::get`. -/
def nameOfFundamentalType : IntWidth → String
  | IntWidth.i8 => "int8_t"
  | IntWidth.u8 => "uint8_t"
  | IntWidth.i16 => "int16_t"
  | IntWidth.u16 => "uint16_t"
  | IntWidth.i32 => "int32_t"
  | IntWidth.u32 => "uint32_t"
  | IntWidth.i64 => "int64_t"
  | IntWidth.u64 => "uint64_t"

/-- Concrete dynamic kinds of `LambdaArgument` values: plain scalar,
encrypted scalar, plain tensor, encrypted tensor, each per backing width. -/
inductive ArgKind where
  | int (w : IntWidth)
  | eint (w : IntWidth)
  | tensorInt (w : IntWidth)
  | tensorEInt (w : IntWidth)
  deriving DecidableEq

/-- `isa`/`dyn_cast` success test against target `IntLambdaArgument<w>`:
per `llvm::RTTIExtends`, a class matches if its own ID or any ID on its
declared parent chain matches. `EIntLambdaArgument<w>` declares
`IntLambdaArgument<w>` as its RTTI parent, so it matches too. -/
def isaIntLambdaArgument (k : ArgKind) (w : IntWidth) : Bool :=
  match k with
  | ArgKind.int w2 => w2 == w
  | ArgKind.eint w2 => w2 == w
  | _ => false

/-- `isa`/`dyn_cast` success test against target `EIntLambdaArgument<w>`. -/
def isaEIntLambdaArgument (k : ArgKind) (w : IntWidth) : Bool :=
  match k with
  | ArgKind.eint w2 => w2 == w
  | _ => false

/-- `isa`/`dyn_cast` success test against target
`TensorLambdaArgument<IntLambdaArgument<w>>`; tensor instantiations are
direct RTTI children of `LambdaArgument`, with no relation to each other. -/
def isaTensorIntLambdaArgument (k : ArgKind) (w : IntWidth) : Bool :=
  match k with
  | ArgKind.tensorInt w2 => w2 == w
  | _ => false

/-- `isa`/`dyn_cast` success test against target
`TensorLambdaArgument<EIntLambdaArgument<w>>`. -/
def isaTensorEIntLambdaArgument (k : ArgKind) (w : IntWidth) : Bool :=
  match k with
  | ArgKind.tensorEInt w2 => w2 == w
  | _ => false

/-- `LambdaArgumentTypeName<T, Ts...>::get`: for each width in turn, tests
the four targets in source order (plain scalar, encrypted scalar, plain
tensor, encrypted tensor) and renders the first match; the empty-pack base
case is `assert(false)`, modelled as `none`. -/
def lambdaArgumentTypeName : List IntWidth → ArgKind → Option String
  | [], _ => none
  | t :: ts, arg =>
    if isaIntLambdaArgument arg t then
      some (nameOfFundamentalType t)
    else if isaEIntLambdaArgument arg t then
      some ("encrypted " ++ nameOfFundamentalType t)
    else if isaTensorIntLambdaArgument arg t then
      some ("tensor<" ++ nameOfFundamentalType t ++ ">")
    else if isaTensorEIntLambdaArgument arg t then
      some ("tensor<encrypted " ++ nameOfFundamentalType t ++ ">")
    else lambdaArgumentTypeName ts arg

/-- `getLambdaArgumentTypeAsString`: instantiates the recursion with the
fixed width order of the source. -/
def getLambdaArgumentTypeAsString (arg : ArgKind) : Option String :=
  lambdaArgumentTypeName
    [IntWidth.i8, IntWidth.u8, IntWidth.i16, IntWidth.u16,
     IntWidth.i32, IntWidth.u32, IntWidth.i64, IntWidth.u64] arg


/-! ## Helper lemmas -/

theorem safeUnsignedMul_ok_of_bound (w a f : Nat) (ha : 1 ≤ a)
    (h : a * (f + 1) ≤ 2 ^ w - 1) :
    safeUnsignedMul w a f = MulOutcome.ok (a * f) := by
  have ha0 : ¬ a = 0 := by omega
  have hc : (f + 1) * a = a * (f + 1) := Nat.mul_comm _ _
  have hdiv : f < (2 ^ w - 1) / a := by
    have h1 : f + 1 ≤ (2 ^ w - 1) / a :=
      (Nat.le_div_iff_mul_le (by omega : 0 < a)).mpr (by omega)
    omega
  have hmul : a * (f + 1) = a * f + a := by ring
  have hw : 1 ≤ 2 ^ w := Nat.one_le_two_pow
  have hlt : a * f < 2 ^ w := by omega
  unfold safeUnsignedMul
  rw [if_neg ha0, if_pos hdiv, Nat.mod_eq_of_lt hlt]

theorem safeUnsignedMul_overflow_of_bound (w a f : Nat) (ha : 1 ≤ a)
    (h : 2 ^ w - 1 < a * f) :
    safeUnsignedMul w a f = MulOutcome.overflow a f := by
  have ha0 : ¬ a = 0 := by omega
  have hndiv : ¬ f < (2 ^ w - 1) / a := by
    intro hf
    have h1 : f + 1 ≤ (2 ^ w - 1) / a := hf
    have h2 : (f + 1) * a ≤ 2 ^ w - 1 :=
      (Nat.le_div_iff_mul_le (by omega : 0 < a)).mp h1
    have hc : (f + 1) * a = a * f + a := by ring
    omega
  unfold safeUnsignedMul
  rw [if_neg ha0, if_neg hndiv]

theorem foldSafeMul_spec : ∀ (dims : List Int) (accu : Nat), 0 < accu →
    (∀ d ∈ dims, 0 < d ∧ d < (2 ^ 32 : Int)) →
    2 * (accu * (dims.map Int.toNat).prod) ≤ 2 ^ 64 - 1 →
    foldSafeMul accu dims = MulOutcome.ok (accu * (dims.map Int.toNat).prod)
  | [], accu, _, _, _ => by simp [foldSafeMul]
  | d :: ds, accu, ha, hd, hbound => by
    obtain ⟨hd0, hd32⟩ := hd d (List.mem_cons_self d ds)
    have hconv : cppToUInt32 d = d.toNat := by
      unfold cppToUInt32
      rw [Int.emod_eq_of_lt (by omega) hd32]
    have hdn : 1 ≤ d.toNat := by omega
    have hP : 0 < (ds.map Int.toNat).prod := by
      apply List.prod_pos
      intro x hx
      obtain ⟨d2, hd2, rfl⟩ := List.mem_map.mp hx
      have := hd d2 (List.mem_cons_of_mem d hd2)
      omega
    have hprod : ((d :: ds).map Int.toNat).prod = d.toNat * (ds.map Int.toNat).prod := by
      simp
    rw [hprod] at hbound
    have h1 : accu * d.toNat ≤ accu * (d.toNat * (ds.map Int.toNat).prod) := by
      rw [← Nat.mul_assoc]
      exact Nat.le_mul_of_pos_right _ hP
    have h2 : accu ≤ accu * (d.toNat * (ds.map Int.toNat).prod) :=
      Nat.le_mul_of_pos_right _ (by positivity)
    have e1 : accu * (d.toNat + 1) = accu * d.toNat + accu := by ring
    have hstep : accu * (d.toNat + 1) ≤ 2 ^ 64 - 1 := by omega
    have hmul := safeUnsignedMul_ok_of_bound 64 accu d.toNat (by omega) hstep
    have hrec := foldSafeMul_spec ds (accu * d.toNat) (by positivity)
      (fun d2 hd2 => hd d2 (List.mem_cons_of_mem d hd2))
      (by rw [Nat.mul_assoc]; exact hbound)
    simp only [foldSafeMul, hconv, hmul]
    rw [hrec, hprod, Nat.mul_assoc]

theorem zip_all_eq_iff : ∀ (xs ys : List Nat), xs.length = ys.length →
    (((List.zip xs ys).all fun p => p.1 == p.2) = true ↔ xs = ys)
  | [], [], _ => by simp
  | [], _ :: _, h => by simp at h
  | _ :: _, [], h => by simp at h
  | x :: xs, y :: ys, h => by
    have ih := zip_all_eq_iff xs ys (by simpa using h)
    simp only [List.zip_cons_cons, List.all_cons, Bool.and_eq_true, beq_iff_eq, ih]
    constructor
    · rintro ⟨h1, h2⟩; exact by rw [h1, h2]
    · intro h12; injection h12 with h1 h2; exact ⟨h1, h2⟩


/-! ## Claims -/

/-- C1: the constructor does not mask to the low `precision` bits; with 8-bit
backing, precision 4 and raw value 245 (0b11110101) the source formula
`value & (1 << (precision - 1))` stores 0, while the claimed low-bit masking
would store 5 (0b00000101). -/
theorem C1_single_bit_mask_eval :
    intLambdaArgumentStoredValue 8 245 4 = 0 ∧
    specLowBitsStoredValue 8 245 4 = 5 := by decide

/-- C2: type-name resolution at width uint32_t renders the plain scalar, the
plain tensor and the encrypted tensor as claimed, but renders the encrypted
scalar as the bare name "uint32_t" (not "encrypted uint32_t"), because the
plain-scalar dyn_cast branch already matches it. -/
theorem C2_type_name_eval :
    getLambdaArgumentTypeAsString (ArgKind.int IntWidth.u32) = some "uint32_t" ∧
    getLambdaArgumentTypeAsString (ArgKind.eint IntWidth.u32) = some "uint32_t" ∧
    getLambdaArgumentTypeAsString (ArgKind.tensorInt IntWidth.u32) =
      some "tensor<uint32_t>" ∧
    getLambdaArgumentTypeAsString (ArgKind.tensorEInt IntWidth.u32) =
      some "tensor<encrypted uint32_t>" :=
  ⟨rfl, rfl, rfl, rfl⟩

/-- C3: for a zero accumulator and any factor, `safeUnsignedMul` reaches the
division `max() / accu` with a zero divisor (undefined behaviour); it has no
special case returning 0 without error. -/
theorem C3_zero_accumulator_div_by_zero :
    ∀ w f : Nat, safeUnsignedMul w 0 f = MulOutcome.divByZeroUB :=
  fun _ _ => rfl

/-- C4: the dimension sequence [0, 2] makes `getNumElements` reach the
division by a zero accumulator (undefined behaviour) instead of returning
an element count of 0 with no error. -/
theorem C4_zero_dim_div_by_zero :
    getNumElements (TensorLambdaArgument.ofCopy [] [0, 2]) =
      MulOutcome.divByZeroUB := by decide

/-- C5 counterexample: the dimension sequence [4294967296] consists of one
non-negative `int64_t` whose mathematical product, 2^32, fits a 64-bit
`size_t`, yet `getNumElements` returns 0 because the loop converts each
dimension to a 32-bit `unsigned int`, truncating 2^32 to 0. -/
theorem C5_truncation_counterexample :
    getNumElements (TensorLambdaArgument.ofCopy [] [4294967296]) =
      MulOutcome.ok 0 ∧
    (List.map Int.toNat [(4294967296 : Int)]).prod = 4294967296 := by decide

/-- C5 amended: for dimension sequences of positive dimensions each below
2^32 whose doubled mathematical product fits `size_t`, `getNumElements`
returns exactly the mathematical product of the dimensions. -/
theorem C5_num_elements_product (t : TensorLambdaArgument)
    (hdims : ∀ d ∈ t.dimensions, 0 < d ∧ d < (2 ^ 32 : Int))
    (hfit : 2 * (t.dimensions.map Int.toNat).prod ≤ 2 ^ 64 - 1) :
    getNumElements t = MulOutcome.ok ((t.dimensions.map Int.toNat).prod) := by
  have h := foldSafeMul_spec t.dimensions 1 (by omega) hdims (by simpa using hfit)
  simpa [getNumElements] using h

/-- Witness for C5 amended: dimensions [2, 3, 4] yield exactly 24 elements. -/
theorem C5_num_elements_product_witness :
    getNumElements (TensorLambdaArgument.ofCopy [1] [2, 3, 4]) =
      MulOutcome.ok 24 :=
  (C5_num_elements_product (TensorLambdaArgument.ofCopy [1] [2, 3, 4])
    (by decide) (by decide)).trans (by decide)

/-- C6 counterexample: with an 8-bit accumulator, a = 1 and f = 255 the
product 255 is representable (it equals the maximum), yet `safeUnsignedMul`
reports an overflow because the quotient test is strict. -/
theorem C6_exact_fit_counterexample :
    safeUnsignedMul 8 1 255 = MulOutcome.overflow 1 255 ∧
    1 * 255 ≤ 2 ^ 8 - 1 := by decide

/-- C6 amended: for a positive accumulator a and factor f with
`a * (f + 1) <= max` (the exact region accepted by the strict quotient
test), `safeUnsignedMul` succeeds and returns exactly `a * f`. -/
theorem C6_mul_exact (w a f : Nat) (ha : 1 ≤ a)
    (h : a * (f + 1) ≤ 2 ^ w - 1) :
    safeUnsignedMul w a f = MulOutcome.ok (a * f) :=
  safeUnsignedMul_ok_of_bound w a f ha h

/-- Witness for C6 amended: 3 * 4 = 12 with an 8-bit accumulator. -/
theorem C6_mul_exact_witness : safeUnsignedMul 8 3 4 = MulOutcome.ok 12 :=
  C6_mul_exact 8 3 4 (by decide) (by decide)

/-- C7: for a positive accumulator a and factor f whose product strictly
exceeds the maximum representable value, `safeUnsignedMul` reports an
overflow naming both operands, never a wrapped or truncated product. -/
theorem C7_mul_overflow (w a f : Nat) (ha : 1 ≤ a)
    (h : 2 ^ w - 1 < a * f) :
    safeUnsignedMul w a f = MulOutcome.overflow a f :=
  safeUnsignedMul_overflow_of_bound w a f ha h

/-- Witness for C7: 16 * 16 = 256 overflows an 8-bit accumulator. -/
theorem C7_mul_overflow_witness :
    safeUnsignedMul 8 16 16 = MulOutcome.overflow 16 16 :=
  C7_mul_overflow 8 16 16 (by decide) (by decide)

/-- C8 counterexample: two constructible tensors with equal dimensions [2]
but different linear buffers [1, 2] and [1] compare equal, because the
element loop zips the buffers and stops at the shorter one. -/
theorem C8_short_buffer_counterexample :
    TensorLambdaArgument.beq (TensorLambdaArgument.ofCopy [1, 2] [2])
      (TensorLambdaArgument.ofCopy [1] [2]) = true ∧
    (TensorLambdaArgument.ofCopy [1, 2] [2]).value ≠
      (TensorLambdaArgument.ofCopy [1] [2]).value := by decide

/-- C8 amended: for tensors whose linear buffers have equal length (in
particular any two tensors satisfying the length invariant), equality holds
exactly when the dimension sequences are equal and the buffers are equal;
differing dimensions yield false. -/
theorem C8_tensor_eq_iff (a b : TensorLambdaArgument)
    (hlen : a.value.length = b.value.length) :
    (TensorLambdaArgument.beq a b = true ↔
      (a.dimensions = b.dimensions ∧ a.value = b.value)) := by
  unfold TensorLambdaArgument.beq
  by_cases hdim : a.dimensions = b.dimensions
  · rw [if_pos hdim, zip_all_eq_iff a.value b.value hlen]
    simp [hdim]
  · rw [if_neg hdim]
    simp [hdim]

/-- Witness for C8 amended: a shape-[2,2] tensor with elements [1,2,3,4]
equals an identical tensor. -/
theorem C8_tensor_eq_iff_witness :
    TensorLambdaArgument.beq (TensorLambdaArgument.ofCopy [1, 2, 3, 4] [2, 2])
      (TensorLambdaArgument.ofCopy [1, 2, 3, 4] [2, 2]) = true :=
  (C8_tensor_eq_iff (TensorLambdaArgument.ofCopy [1, 2, 3, 4] [2, 2])
    (TensorLambdaArgument.ofCopy [1, 2, 3, 4] [2, 2]) rfl).mpr ⟨rfl, rfl⟩

/-- C9 counterexample: both constructors accept the buffer [1,2,3] with
dimensions [2,2] (product 4) and the resulting tensor violates the
length-equals-product invariant. -/
theorem C9_invariant_counterexample :
    ¬ TensorLambdaArgument.invariantHolds
        (TensorLambdaArgument.ofCopy [1, 2, 3] [2, 2]) ∧
    ¬ TensorLambdaArgument.invariantHolds
        (TensorLambdaArgument.ofMove [1, 2, 3] [2, 2]) := by
  unfold TensorLambdaArgument.invariantHolds TensorLambdaArgument.ofCopy
    TensorLambdaArgument.ofMove
  decide

/-- C9 amended: both constructors store the given buffer and dimensions
verbatim without validation, so a constructed tensor satisfies the
length-equals-product invariant exactly when the inputs already do. -/
theorem C9_constructors_store_verbatim : ∀ (v : List Nat) (dims : List Int),
    (TensorLambdaArgument.invariantHolds (TensorLambdaArgument.ofCopy v dims) ↔
      (v.length : Int) = dims.prod) ∧
    (TensorLambdaArgument.invariantHolds (TensorLambdaArgument.ofMove v dims) ↔
      (v.length : Int) = dims.prod) :=
  fun _ _ => ⟨Iff.rfl, Iff.rfl⟩

/-- C10: for every backing width, an encrypted scalar passes the
`dyn_cast` test against the plain scalar class of the same width (the RTTI
parent chain of `EIntLambdaArgument<W>` contains `IntLambdaArgument<W>`),
so the leaf kinds are not pairwise disjoint and the resolver's plain-scalar
branch, tested first, is the one an encrypted scalar matches: both kinds
render identically. -/
theorem C10_eint_isa_int : ∀ w : IntWidth,
    isaIntLambdaArgument (ArgKind.eint w) w = true ∧
    getLambdaArgumentTypeAsString (ArgKind.eint w) =
      getLambdaArgumentTypeAsString (ArgKind.int w) := by
  intro w
  cases w <;> exact ⟨rfl, rfl⟩

end Concretelang
